import Mathlib

/-!
Verification of the eMMC-style SPI protocol engine (libaspect2).

We shallowly embed the protocol data model (src/spi/protocol/commands.rs,
src/spi/protocol/transaction.rs), the transport contract
(src/spi/backend/mod.rs) and the device driver (src/spi/emmc_reader.rs).

Stateful driver code is embedded in an explicit state-passing monad `DM`
over an abstract backend: each computation takes a backend state and
returns a result (success or error), the final backend state, and the
list of transport operations performed (each recorded together with the
outcome the transport gave it).  Rust's `?` operator becomes the monad's
bind, which propagates an error unchanged and performs no further
transport operations.  Rust `assert_eq!` panics are modelled as a
distinguished error `Err.assertFailed`.  The one unbounded loop in the
source (the memory-training loop of `init_sequence`) is embedded with a
fuel parameter; exhausting the fuel yields the distinguished marker
`Err.diverge`, so "the loop never exits" is rendered as "for every fuel
the result is `Err.diverge`".
-/

/-- Register addresses of the eMMC SPI controller
(enum `Register`, src/spi/protocol/commands.rs lines 28-73). -/
inductive Register
  | Reg_01
  | Argument
  | CommandAndTransferMode
  | Response0And1
  | Response2And3
  | Response4And5
  | Response6And7
  | DataFifo
  | PresentState
  | Reg_0A
  | Command
  | InterruptStatus
  | Config1
  | Config2
  | Reg_0F
  | InitCommand
  | XipOutputDelay
  deriving DecidableEq, Repr, Fintype

/-- `Register::address` (the `#[repr(u8)]` discriminants of the enum). -/
def Register.address : Register → Nat
  | .Reg_01 => 0x01
  | .Argument => 0x02
  | .CommandAndTransferMode => 0x03
  | .Response0And1 => 0x04
  | .Response2And3 => 0x05
  | .Response4And5 => 0x06
  | .Response6And7 => 0x07
  | .DataFifo => 0x08
  | .PresentState => 0x09
  | .Reg_0A => 0x0A
  | .Command => 0x0B
  | .InterruptStatus => 0x0C
  | .Config1 => 0x0D
  | .Config2 => 0x0E
  | .Reg_0F => 0x0F
  | .InitCommand => 0x44
  | .XipOutputDelay => 0x88

/-- `Register::from_address` (src/spi/protocol/commands.rs lines 94-111),
transcribed arm for arm: exactly the thirteen addresses matched there. -/
def Register.from_address (addr : Nat) : Option Register :=
  match addr with
  | 0x02 => some .Argument
  | 0x03 => some .CommandAndTransferMode
  | 0x04 => some .Response0And1
  | 0x05 => some .Response2And3
  | 0x06 => some .Response4And5
  | 0x07 => some .Response6And7
  | 0x08 => some .DataFifo
  | 0x09 => some .PresentState
  | 0x0B => some .Command
  | 0x0C => some .InterruptStatus
  | 0x0D => some .Config1
  | 0x0E => some .Config2
  | 0x44 => some .InitCommand
  | _ => none

/-- SPI command opcodes (enum `Command`, src/spi/protocol/commands.rs). -/
inductive Command
  | Read
  | Write
  deriving DecidableEq, Repr

/-- `Command::bits` (the `#[repr(u8)]` discriminants: Read=0x1, Write=0x2). -/
def Command.bits : Command → Nat
  | .Read => 0x1
  | .Write => 0x2

/-- `DataSize` (src/spi/protocol/commands.rs lines 116-121). -/
inductive DataSize
  | Register
  | Page
  deriving DecidableEq, Repr

/-- `DataSize::bytes`. -/
def DataSize.bytes : DataSize → Nat
  | .Register => 4
  | .Page => 512

/-- `TransactionType` (src/spi/protocol/transaction.rs lines 7-21). -/
inductive TransactionType
  | Write (register : Register) (data : Nat)
  | Read (register : Register)
  | ReadData (register : Register)
  deriving DecidableEq, Repr

/-- `TransactionType::command` (transaction.rs lines 40-45). -/
def TransactionType.command : TransactionType → Command
  | .Write _ _ => .Write
  | .Read _ => .Read
  | .ReadData _ => .Read

/-- `TransactionType::register` (transaction.rs lines 48-54). -/
def TransactionType.register : TransactionType → Register
  | .Write r _ => r
  | .Read r => r
  | .ReadData r => r

/-- `TransactionType::response_size` (transaction.rs lines 57-63). -/
def TransactionType.response_size : TransactionType → Option DataSize
  | .Write _ _ => none
  | .Read _ => some .Register
  | .ReadData _ => some .Page

/-- `TransactionType::write_data` (transaction.rs lines 66-71). -/
def TransactionType.write_data : TransactionType → Option Nat
  | .Write _ d => some d
  | _ => none

/-- Status constants (mod `status`, src/spi/protocol/commands.rs 194-209). -/
def STATUS_CLEAR : Nat := 0xFFFFFFFF

/-- `status::DATA_READY`. -/
def DATA_READY : Nat := 0x00000020

/-- `status::CMD_ACCEPTED`. -/
def CMD_ACCEPTED : Nat := 0x00000021

/-- `status::TRANSFER_COMPLETE`. -/
def TRANSFER_COMPLETE : Nat := 0x00000002

/-- `transfer_config::PAGE_READ` (commands.rs line 215). -/
def PAGE_READ : Nat := 0x113A0010

/-- Error taxonomy (enum `Error`, src/error.rs), plus two model-level
markers: `assertFailed` renders a Rust `assert_eq!` panic, and `diverge`
renders exhaustion of the fuel that bounds the source's unbounded
memory-training loop. -/
inductive Err
  | todo
  | deviceTimeout
  | ftStatus (code : Nat)
  | deviceTypeError
  | invalidGpioState
  | invalidPinMask
  | sanityCheckFailed (expected actual : Nat)
  | initializationFailed
  | registerAccessFailed
  | timeout
  | assertFailed (expected actual : Nat)
  | diverge
  deriving DecidableEq, Repr

deriving instance DecidableEq for Except

/-- One observable transport operation, recorded together with the outcome
the backend returned for it. -/
inductive Ev
  | writeReg (r : Register) (d : Nat) (res : Except Err Unit)
  | readReg (r : Register) (res : Except Err Nat)
  | readBulk (r : Register) (buf : List Nat) (res : Except Err (List Nat))
  | resetHw (res : Except Err Unit)
  | initHw (res : Except Err Unit)
  deriving DecidableEq, Repr

/-- The transport contract (trait `SpiBackend`, src/spi/backend/mod.rs):
a deterministic state machine over states `σ` with the five primitive
operations.  `readData` receives the caller's buffer and returns the
filled buffer; `readData_length` records the guarantee Rust's
`&mut [u8]` type gives for free, that filling a buffer does not change
its length.  `initHw` embeds the trait method `initialize`. -/
structure Backend (σ : Type) where
  writeRegister : σ → Register → Nat → Except Err Unit × σ
  readRegister : σ → Register → Except Err Nat × σ
  readData : σ → Register → List Nat → Except Err (List Nat) × σ
  resetHw : σ → Except Err Unit × σ
  initHw : σ → Except Err Unit × σ
  readData_length : ∀ s r buf out s2,
    readData s r buf = (Except.ok out, s2) → out.length = buf.length

/-- The driver monad: state passing over the backend state, short-circuit
on error, and a trace of the transport operations performed. -/
def DM (σ : Type) (α : Type) := σ → Except Err α × σ × List Ev

/-- Monadic return: no transport operation, no state change. -/
def dmPure {σ α : Type} (a : α) : DM σ α := fun s => (Except.ok a, s, [])

/-- Monadic bind: embeds Rust's `?`.  An error is returned unchanged and
the continuation's transport operations are not performed. -/
def dmBind {σ α β : Type} (m : DM σ α) (f : α → DM σ β) : DM σ β :=
  fun s =>
    match m s with
    | (Except.ok a, s1, t1) =>
      match f a s1 with
      | (r, s2, t2) => (r, s2, t1 ++ t2)
    | (Except.error e, s1, t1) => (Except.error e, s1, t1)

instance : Monad (DM σ) where
  pure := dmPure
  bind := dmBind

/-- A computation that fails immediately with `e`, performing no
transport operation (a Rust `return Err(e)`). -/
def dmFail {σ α : Type} (e : Err) : DM σ α := fun s => (Except.error e, s, [])

/-- Backend call `write_register`, recorded in the trace. -/
def dmWriteReg {σ : Type} (B : Backend σ) (r : Register) (d : Nat) : DM σ Unit :=
  fun s =>
    match B.writeRegister s r d with
    | (res, s1) => (res, s1, [Ev.writeReg r d res])

/-- Backend call `read_register`, recorded in the trace. -/
def dmReadReg {σ : Type} (B : Backend σ) (r : Register) : DM σ Nat :=
  fun s =>
    match B.readRegister s r with
    | (res, s1) => (res, s1, [Ev.readReg r res])

/-- Backend call `read_data`, recorded in the trace. -/
def dmReadData {σ : Type} (B : Backend σ) (r : Register) (buf : List Nat) : DM σ (List Nat) :=
  fun s =>
    match B.readData s r buf with
    | (res, s1) => (res, s1, [Ev.readBulk r buf res])

/-- Backend call `initialize` (transport bring-up), recorded in the trace. -/
def dmInitHw {σ : Type} (B : Backend σ) : DM σ Unit :=
  fun s =>
    match B.initHw s with
    | (res, s1) => (res, s1, [Ev.initHw res])

/-- Rust `assert_eq!(expected, actual)`: succeeds silently on equality,
otherwise aborts with the panic marker `Err.assertFailed`. -/
def dmAssertEq {σ : Type} (expected actual : Nat) : DM σ Unit :=
  if expected = actual then dmPure () else dmFail (Err.assertFailed expected actual)

/-- Little-endian byte rendering of a 32-bit value
(`u32::to_le_bytes` as used by `execute_transaction`). -/
def toLeBytes4 (v : Nat) : List Nat :=
  [v % 256, (v / 256) % 256, (v / 65536) % 256, (v / 16777216) % 256]

/-- `SpiBackend::execute_transaction` (src/spi/backend/mod.rs lines 51-67):
dispatches a `TransactionType` to the three primitive operations. -/
def execute_transaction {σ : Type} (B : Backend σ) : TransactionType → DM σ (Option (List Nat))
  | .Write r d => dmBind (dmWriteReg B r d) (fun _ => dmPure none)
  | .Read r => dmBind (dmReadReg B r) (fun v => dmPure (some (toLeBytes4 v)))
  | .ReadData r =>
      dmBind (dmReadData B r (List.replicate 512 0)) (fun out => dmPure (some out))

/-- `EmmcReader::poll_for_value`, inner loop (src/spi/emmc_reader.rs
lines 268-279): the remaining-attempts counter drives the recursion;
`0` remaining renders falling out of the `for` loop with `Err(Timeout)`. -/
def pollGo {σ : Type} (B : Backend σ) (register : Register) (value : Nat) : Nat → DM σ Unit
  | 0 => dmFail Err.timeout
  | n + 1 => do
      let status_value ← dmReadReg B register
      if status_value = value then dmPure () else pollGo B register value n

/-- `EmmcReader::poll_for_value` with its fixed budget `MAX_POLLS = 10`. -/
def poll_for_value {σ : Type} (B : Backend σ) (register : Register) (value : Nat) : DM σ Unit :=
  pollGo B register value 10

/-- `EmmcReader::sanity_check`, loop body over the remaining test values
(src/spi/emmc_reader.rs lines 202-218). -/
def sanityGo {σ : Type} (B : Backend σ) : List Nat → DM σ Unit
  | [] => dmPure ()
  | test_value :: rest => do
      dmWriteReg B .Argument test_value
      let response1 ← dmReadReg B .Argument
      if response1 ≠ test_value then dmFail (Err.sanityCheckFailed test_value response1)
      else sanityGo B rest

/-- The four sanity-check round-trip values, in iteration order
(`[TEST_VAL_1, TEST_VAL_2, TEST_VAL_1, TEST_VAL_2]`). -/
def sanityVals : List Nat := [0x12345678, 0xEDCBA987, 0x12345678, 0xEDCBA987]

/-- `EmmcReader::sanity_check`. -/
def sanity_check {σ : Type} (B : Backend σ) : DM σ Unit :=
  sanityGo B sanityVals

/-- `EmmcReader::read_page` (src/spi/emmc_reader.rs lines 295-324).  The
caller's 512-byte buffer comes in as `buffer`; the filled buffer is the
returned value. -/
def read_page {σ : Type} (B : Backend σ) (page_number : Nat) (buffer : List Nat) :
    DM σ (List Nat) := do
  dmWriteReg B .InterruptStatus STATUS_CLEAR
  dmWriteReg B .Argument page_number
  dmWriteReg B .CommandAndTransferMode PAGE_READ
  poll_for_value B .InterruptStatus CMD_ACCEPTED
  poll_for_value B .InterruptStatus DATA_READY
  dmWriteReg B .InterruptStatus DATA_READY
  let buf ← dmReadData B .DataFifo buffer
  let _ ← dmReadReg B .InterruptStatus
  dmWriteReg B .InterruptStatus TRANSFER_COMPLETE
  dmPure buf

/-- `EmmcReader::erase_page` (src/spi/emmc_reader.rs lines 342-374), the
stub with placeholder transfer configuration `0x00000000`. -/
def erase_page {σ : Type} (B : Backend σ) (page_number : Nat) : DM σ Unit := do
  dmWriteReg B .InterruptStatus STATUS_CLEAR
  dmWriteReg B .Argument page_number
  dmWriteReg B .CommandAndTransferMode 0x00000000
  poll_for_value B .InterruptStatus CMD_ACCEPTED
  poll_for_value B .InterruptStatus TRANSFER_COMPLETE
  dmWriteReg B .InterruptStatus TRANSFER_COMPLETE

/-- `EmmcReader::write_page` (src/spi/emmc_reader.rs lines 394-435), the
stub: placeholder transfer configuration `0x00000000` and no transmission
of the payload at all (the source only does `let _ = buffer`). -/
def write_page {σ : Type} (B : Backend σ) (page_number : Nat) (_buffer : List Nat) :
    DM σ Unit := do
  dmWriteReg B .InterruptStatus STATUS_CLEAR
  dmWriteReg B .Argument page_number
  dmWriteReg B .CommandAndTransferMode 0x00000000
  poll_for_value B .InterruptStatus CMD_ACCEPTED
  poll_for_value B .InterruptStatus TRANSFER_COMPLETE
  dmWriteReg B .InterruptStatus TRANSFER_COMPLETE

/-- `EmmcReader::init_sequence`, the script before the memory-training
loop (src/spi/emmc_reader.rs lines 29-54). -/
def initSeqPre {σ : Type} (B : Backend σ) : DM σ Unit := do
  let res ← dmReadReg B .Command
  dmAssertEq 0x0 res
  dmWriteReg B .Command 0x1
  let res ← dmReadReg B .Command
  dmAssertEq 0x3 res
  let res ← dmReadReg B .Command
  dmAssertEq 0x3 res
  dmWriteReg B .Command 0x3
  dmWriteReg B .Command 0x43
  dmWriteReg B .Command 0x47
  let res ← dmReadReg B .Config1
  dmAssertEq 0x0 res
  dmWriteReg B .Config1 0x1FFF0033
  let res ← dmReadReg B .Config2
  dmAssertEq 0x0 res
  dmWriteReg B .Config2 0x17FF0033
  dmWriteReg B .Argument 0x0
  dmWriteReg B .CommandAndTransferMode 0x0
  let res ← dmReadReg B .InterruptStatus
  dmAssertEq 0x1 res
  dmWriteReg B .InterruptStatus 0x1
  let res ← dmReadReg B .Command
  dmAssertEq 0x47 res
  dmWriteReg B .Command 0xE0047

/-- One iteration of the memory-training loop up to and including the
`Response0And1` read (src/spi/emmc_reader.rs lines 59-66); returns that
read's value. -/
def trainBody {σ : Type} (B : Backend σ) : DM σ Nat := do
  dmWriteReg B .Argument 0x40000080
  dmWriteReg B .CommandAndTransferMode 0x1020000
  let res ← dmReadReg B .InterruptStatus
  dmAssertEq 0x0 res
  let res ← dmReadReg B .InterruptStatus
  dmAssertEq 0x1 res
  dmWriteReg B .InterruptStatus 0x1
  dmReadReg B .Response0And1

/-- First iteration of the memory-training loop: `current_val` is `None`,
so the observed value is asserted to be the initial sentinel `0xFF8080`
and the loop always continues (`current_val` was just set to this same
value, so the change test cannot fire). -/
def trainFirst {σ : Type} (B : Backend σ) : DM σ Unit := do
  let res ← trainBody B
  dmAssertEq 0xFF8080 res

/-- The memory-training loop after its first iteration: it keeps
iterating while `Response0And1` still reads the initial sentinel
`0xFF8080`, and on the first differing value asserts that value equals
the terminal sentinel `0xC0FF8080` and exits.  The source loop has no
iteration cap; `fuel` bounds the embedding, with exhaustion marked by
`Err.diverge`. -/
def trainRest {σ : Type} (B : Backend σ) : Nat → DM σ Unit
  | 0 => dmFail Err.diverge
  | n + 1 => do
      let res ← trainBody B
      if res = 0xFF8080 then trainRest B n
      else dmAssertEq 0xC0FF8080 res

/-- The whole memory-training loop (src/spi/emmc_reader.rs lines 56-83). -/
def memoryTraining {σ : Type} (B : Backend σ) (fuel : Nat) : DM σ Unit := do
  trainFirst B
  trainRest B fuel

/-- `EmmcReader::init_sequence`, the script after the memory-training
loop (src/spi/emmc_reader.rs lines 85-169). -/
def initSeqPost {σ : Type} (B : Backend σ) : DM σ Unit := do
  dmWriteReg B .Argument 0x0
  dmWriteReg B .CommandAndTransferMode 0x2090000
  let res ← dmReadReg B .InterruptStatus
  dmAssertEq 0x0 res
  let res ← dmReadReg B .InterruptStatus
  dmAssertEq 0x0 res
  let res ← dmReadReg B .InterruptStatus
  dmAssertEq 0x1 res
  dmWriteReg B .InterruptStatus 0x1
  let res ← dmReadReg B .Response0And1
  dmAssertEq 0xF4E59BF res
  let res ← dmReadReg B .Response2And3
  dmAssertEq 0x3932009D res
  let res ← dmReadReg B .Response4And5
  dmAssertEq 0x30303847 res
  let res ← dmReadReg B .Response6And7
  dmAssertEq 0x110100 res
  dmWriteReg B .Argument 0xA0000
  dmWriteReg B .CommandAndTransferMode 0x31A0000
  let res ← dmReadReg B .InterruptStatus
  dmAssertEq 0x0 res
  let res ← dmReadReg B .InterruptStatus
  dmAssertEq 0x1 res
  dmWriteReg B .InterruptStatus 0x1
  dmWriteReg B .Argument 0xA0000
  dmWriteReg B .CommandAndTransferMode 0x71A0000
  let res ← dmReadReg B .InterruptStatus
  dmAssertEq 0x0 res
  let res ← dmReadReg B .InterruptStatus
  dmAssertEq 0x1 res
  dmWriteReg B .InterruptStatus 0x1
  dmWriteReg B .Argument 0x3B70200
  dmWriteReg B .CommandAndTransferMode 0x61B0000
  let res ← dmReadReg B .InterruptStatus
  dmAssertEq 0x0 res
  let res ← dmReadReg B .InterruptStatus
  dmAssertEq 0x3 res
  dmWriteReg B .InterruptStatus 0x1
  let res ← dmReadReg B .InterruptStatus
  dmAssertEq 0x2 res
  dmWriteReg B .InterruptStatus 0x2
  let res ← dmReadReg B .Reg_0A
  dmAssertEq 0x800000 res
  dmWriteReg B .Reg_0A 0x800020
  dmWriteReg B .Argument 0x200
  dmWriteReg B .CommandAndTransferMode 0x101A0000
  let res ← dmReadReg B .InterruptStatus
  dmAssertEq 0x0 res
  let res ← dmReadReg B .InterruptStatus
  dmAssertEq 0x1 res
  dmWriteReg B .InterruptStatus 0x1
  dmWriteReg B .Argument 0x3B90100
  dmWriteReg B .CommandAndTransferMode 0x61B0000
  let res ← dmReadReg B .InterruptStatus
  dmAssertEq 0x0 res
  let res ← dmReadReg B .InterruptStatus
  dmAssertEq 0x3 res
  dmWriteReg B .InterruptStatus 0x1
  let res ← dmReadReg B .InterruptStatus
  dmAssertEq 0x2 res
  dmWriteReg B .InterruptStatus 0x2
  let res ← dmReadReg B .Reg_0F
  dmAssertEq 0x0 res
  dmWriteReg B .Reg_0F 0x80000
  dmWriteReg B .Reg_0A 0x800024
  dmWriteReg B .XipOutputDelay 0x70001
  let res ← dmReadReg B .XipOutputDelay
  dmAssertEq 0x70001 res
  let res ← dmReadReg B .Command
  dmAssertEq 0xE0047 res
  dmWriteReg B .Command 0xE0047
  let res ← dmReadReg B .Command
  dmAssertEq 0xE0047 res
  dmWriteReg B .Command 0xE0043
  dmWriteReg B .Command 0xE0203
  dmWriteReg B .Command 0xE0207
  dmWriteReg B .Reg_01 0x10200

/-- `EmmcReader::init_sequence` (src/spi/emmc_reader.rs lines 28-170). -/
def init_sequence {σ : Type} (B : Backend σ) (fuel : Nat) : DM σ Unit := do
  initSeqPre B
  memoryTraining B fuel
  initSeqPost B

/-- Driver state: the owned backend state plus the `initialized` flag
(struct `EmmcReader`, src/spi/emmc_reader.rs lines 11-14). -/
structure Reader (σ : Type) where
  backendState : σ
  initialized : Bool

/-- `EmmcReader::new`. -/
def Reader.new {σ : Type} (s : σ) : Reader σ :=
  { backendState := s, initialized := false }

/-- Runs a backend-level computation on a reader; the `initialized` flag
is carried through untouched, exactly as every `EmmcReader` method other
than `init` leaves `self.initialized` alone. -/
def runOnBackend {σ α : Type} (f : DM σ α) (r : Reader σ) :
    Except Err α × Reader σ × List Ev :=
  match f r.backendState with
  | (res, s1, t) => (res, { backendState := s1, initialized := r.initialized }, t)

/-- The body of `EmmcReader::init` past the already-initialized check
(src/spi/emmc_reader.rs lines 184-195): transport bring-up, the fixed
`0x00000003` write to `InitCommand`, `sanity_check`, `init_sequence`. -/
def initSteps {σ : Type} (B : Backend σ) (fuel : Nat) : DM σ Unit := do
  dmInitHw B
  dmWriteReg B .InitCommand 0x00000003
  sanity_check B
  init_sequence B fuel

/-- `EmmcReader::init` (src/spi/emmc_reader.rs lines 179-199): no-op when
already initialized; otherwise runs `initSteps` and sets the flag only
when every step succeeded. -/
def init {σ : Type} (B : Backend σ) (fuel : Nat) (r : Reader σ) :
    Except Err Unit × Reader σ × List Ev :=
  if r.initialized then (Except.ok (), r, [])
  else
    match initSteps B fuel r.backendState with
    | (Except.ok _, s1, t) =>
        (Except.ok (), { backendState := s1, initialized := true }, t)
    | (Except.error e, s1, t) =>
        (Except.error e, { backendState := s1, initialized := false }, t)

/-- `EmmcReader::write_register` at reader level. -/
def Reader.write_register {σ : Type} (B : Backend σ) (register : Register) (value : Nat)
    (r : Reader σ) : Except Err Unit × Reader σ × List Ev :=
  runOnBackend (dmWriteReg B register value) r

/-- `EmmcReader::read_register` at reader level. -/
def Reader.read_register {σ : Type} (B : Backend σ) (register : Register)
    (r : Reader σ) : Except Err Nat × Reader σ × List Ev :=
  runOnBackend (dmReadReg B register) r

/-- `EmmcReader::read_data` at reader level. -/
def Reader.read_data {σ : Type} (B : Backend σ) (register : Register) (buffer : List Nat)
    (r : Reader σ) : Except Err (List Nat) × Reader σ × List Ev :=
  runOnBackend (dmReadData B register buffer) r

/-- `EmmcReader::read_present_state`. -/
def Reader.read_present_state {σ : Type} (B : Backend σ) (r : Reader σ) :
    Except Err Nat × Reader σ × List Ev :=
  runOnBackend (dmReadReg B .PresentState) r

/-- `EmmcReader::read_interrupt_status`. -/
def Reader.read_interrupt_status {σ : Type} (B : Backend σ) (r : Reader σ) :
    Except Err Nat × Reader σ × List Ev :=
  runOnBackend (dmReadReg B .InterruptStatus) r

/-- `EmmcReader::read_status_config`. -/
def Reader.read_status_config {σ : Type} (B : Backend σ) (r : Reader σ) :
    Except Err Nat × Reader σ × List Ev :=
  runOnBackend (dmReadReg B .Command) r

/-- `EmmcReader::read_response` (src/spi/emmc_reader.rs lines 251-261). -/
def Reader.read_response {σ : Type} (B : Backend σ) (index : Nat) (r : Reader σ) :
    Except Err Nat × Reader σ × List Ev :=
  match index with
  | 0 => runOnBackend (dmReadReg B .Response0And1) r
  | 1 => runOnBackend (dmReadReg B .Response2And3) r
  | 2 => runOnBackend (dmReadReg B .Response4And5) r
  | 3 => runOnBackend (dmReadReg B .Response6And7) r
  | _ => runOnBackend (dmFail Err.registerAccessFailed) r

/-- `EmmcReader::is_initialized`. -/
def Reader.is_initialized {σ : Type} (r : Reader σ) : Bool :=
  r.initialized

/-- Top-level alias so that the reader-level wrapper below can refer to
the backend-level `poll_for_value` despite sharing its short name. -/
def pollForValueDM {σ : Type} (B : Backend σ) (register : Register) (value : Nat) :
    DM σ Unit := poll_for_value B register value

/-- Top-level alias for the backend-level `read_page`. -/
def readPageDM {σ : Type} (B : Backend σ) (page_number : Nat) (buffer : List Nat) :
    DM σ (List Nat) := read_page B page_number buffer

/-- Top-level alias for the backend-level `erase_page`. -/
def erasePageDM {σ : Type} (B : Backend σ) (page_number : Nat) : DM σ Unit :=
  erase_page B page_number

/-- Top-level alias for the backend-level `write_page`. -/
def writePageDM {σ : Type} (B : Backend σ) (page_number : Nat) (buffer : List Nat) :
    DM σ Unit := write_page B page_number buffer

/-- `EmmcReader::poll_for_value` at reader level. -/
def Reader.poll_for_value {σ : Type} (B : Backend σ) (register : Register) (value : Nat)
    (r : Reader σ) : Except Err Unit × Reader σ × List Ev :=
  runOnBackend (pollForValueDM B register value) r

/-- `EmmcReader::read_page` at reader level. -/
def Reader.read_page {σ : Type} (B : Backend σ) (page_number : Nat) (buffer : List Nat)
    (r : Reader σ) : Except Err (List Nat) × Reader σ × List Ev :=
  runOnBackend (readPageDM B page_number buffer) r

/-- `EmmcReader::erase_page` at reader level. -/
def Reader.erase_page {σ : Type} (B : Backend σ) (page_number : Nat)
    (r : Reader σ) : Except Err Unit × Reader σ × List Ev :=
  runOnBackend (erasePageDM B page_number) r

/-- `EmmcReader::write_page` at reader level. -/
def Reader.write_page {σ : Type} (B : Backend σ) (page_number : Nat) (buffer : List Nat)
    (r : Reader σ) : Except Err Unit × Reader σ × List Ev :=
  runOnBackend (writePageDM B page_number buffer) r

/-! ### Basic lemmas about the driver monad -/

/-- Extract the error an operation's recorded outcome carries, if any. -/
def evErr : Ev → Option Err
  | .writeReg _ _ (Except.error e) => some e
  | .readReg _ (Except.error e) => some e
  | .readBulk _ _ (Except.error e) => some e
  | .resetHw (Except.error e) => some e
  | .initHw (Except.error e) => some e
  | _ => none

theorem dmBind_def {σ α β : Type} (m : DM σ α) (f : α → DM σ β) :
    m >>= f = dmBind m f := rfl

theorem dmPure_def {σ α : Type} (a : α) : (pure a : DM σ α) = dmPure a := rfl

theorem dmBind_ok {σ α β : Type} {m : DM σ α} {f : α → DM σ β} {s s1 : σ}
    {a : α} {t1 : List Ev} (h : m s = (Except.ok a, s1, t1)) :
    (m >>= f) s = ((f a s1).1, (f a s1).2.1, t1 ++ (f a s1).2.2) := by
  show dmBind m f s = _
  unfold dmBind
  rw [h]

theorem dmBind_err {σ α β : Type} {m : DM σ α} {f : α → DM σ β} {s s1 : σ}
    {e : Err} {t1 : List Ev} (h : m s = (Except.error e, s1, t1)) :
    (m >>= f) s = (Except.error e, s1, t1) := by
  show dmBind m f s = _
  unfold dmBind
  rw [h]

theorem dmBind_ok2 {σ α β : Type} {m : DM σ α} {f : α → DM σ β} {s s1 : σ}
    {a : α} {t1 : List Ev} (h : m s = (Except.ok a, s1, t1)) :
    dmBind m f s = ((f a s1).1, (f a s1).2.1, t1 ++ (f a s1).2.2) := dmBind_ok h

theorem dmBind_err2 {σ α β : Type} {m : DM σ α} {f : α → DM σ β} {s s1 : σ}
    {e : Err} {t1 : List Ev} (h : m s = (Except.error e, s1, t1)) :
    dmBind m f s = (Except.error e, s1, t1) := dmBind_err h

theorem dmWriteReg_apply {σ : Type} (B : Backend σ) (r : Register) (d : Nat) (s : σ) :
    dmWriteReg B r d s =
      ((B.writeRegister s r d).1, (B.writeRegister s r d).2,
        [Ev.writeReg r d (B.writeRegister s r d).1]) := rfl

theorem dmReadReg_apply {σ : Type} (B : Backend σ) (r : Register) (s : σ) :
    dmReadReg B r s =
      ((B.readRegister s r).1, (B.readRegister s r).2,
        [Ev.readReg r (B.readRegister s r).1]) := rfl

theorem dmReadData_apply {σ : Type} (B : Backend σ) (r : Register) (buf : List Nat) (s : σ) :
    dmReadData B r buf s =
      ((B.readData s r buf).1, (B.readData s r buf).2,
        [Ev.readBulk r buf (B.readData s r buf).1]) := rfl

theorem dmInitHw_apply {σ : Type} (B : Backend σ) (s : σ) :
    dmInitHw B s = ((B.initHw s).1, (B.initHw s).2, [Ev.initHw (B.initHw s).1]) := rfl

/-! ### Claim C5 -/

/-- Claim C5, counterexample: the variant `Reg_01` has address `0x01`,
but `from_address` has no arm for `0x01`, so the claimed round trip
fails at the explicit input `Reg_01`. -/
theorem from_address_roundtrip_cex :
    Register.from_address (Register.address Register.Reg_01) ≠ some Register.Reg_01 := by
  decide

/-- The four `Register` variants `from_address` has no arm for. -/
def fromAddressMissing : List Register :=
  [Register.Reg_01, Register.Reg_0A, Register.Reg_0F, Register.XipOutputDelay]

set_option maxRecDepth 8192 in
/-- Claim C5 (amended): the round trip `from_address (address r) = some r`
holds for every variant except `Reg_01`, `Reg_0A`, `Reg_0F` and
`XipOutputDelay`, whose addresses `from_address` maps to `none`; every
address that is not the address of any variant also yields `none` (the
function is total, so it can never panic). -/
theorem from_address_roundtrip :
    (∀ r : Register, r ∉ fromAddressMissing →
      Register.from_address (Register.address r) = some r) ∧
    (∀ r : Register, r ∈ fromAddressMissing →
      Register.from_address (Register.address r) = none) ∧
    (∀ a : Fin 256, (∀ r : Register, Register.address r ≠ a.val) →
      Register.from_address a.val = none) := by
  decide

/-- Claim C5, witness: the round-trip theorem applied at the concrete
inputs `Argument` (mapped), `Reg_0A` (unmapped variant) and the
variant-free address `0xFF`. -/
theorem from_address_roundtrip_witness :
    Register.from_address (Register.address Register.Argument) = some Register.Argument ∧
    Register.from_address (Register.address Register.Reg_0A) = none ∧
    Register.from_address 0xFF = none :=
  ⟨from_address_roundtrip.1 Register.Argument (by decide),
   from_address_roundtrip.2.1 Register.Reg_0A (by decide),
   from_address_roundtrip.2.2 ⟨0xFF, by decide⟩ (by decide)⟩

/-! ### Claim C6 -/

/-- Claim C6: for every register `r` and data `d`, the `Write`
transaction has command `Write`, carries `d` and expects no response;
`Read` has command `Read`, carries no data and expects a 4-byte
response; `ReadData` has command `Read`, carries no data and expects a
512-byte response. -/
theorem transaction_accessors (r : Register) (d : Nat) :
    (TransactionType.command (.Write r d) = Command.Write ∧
     TransactionType.write_data (.Write r d) = some d ∧
     TransactionType.response_size (.Write r d) = none) ∧
    (TransactionType.command (.Read r) = Command.Read ∧
     TransactionType.write_data (.Read r) = none ∧
     TransactionType.response_size (.Read r) = some DataSize.Register ∧
     DataSize.bytes DataSize.Register = 4) ∧
    (TransactionType.command (.ReadData r) = Command.Read ∧
     TransactionType.write_data (.ReadData r) = none ∧
     TransactionType.response_size (.ReadData r) = some DataSize.Page ∧
     DataSize.bytes DataSize.Page = 512) :=
  ⟨⟨rfl, rfl, rfl⟩, ⟨rfl, rfl, rfl, rfl⟩, ⟨rfl, rfl, rfl, rfl⟩⟩

/-! ### Claim C8 -/

/-- Modelled from the spec and claim wording: the buffer-independent
skeleton `write_page` is said to perform — status clear, page address,
all-zero transfer configuration, the two bounded polls, completion
acknowledge.  Note it takes no payload buffer at all. -/
def write_page_spec {σ : Type} (B : Backend σ) (page_number : Nat) : DM σ Unit := do
  dmWriteReg B .InterruptStatus STATUS_CLEAR
  dmWriteReg B .Argument page_number
  dmWriteReg B .CommandAndTransferMode 0x00000000
  poll_for_value B .InterruptStatus CMD_ACCEPTED
  poll_for_value B .InterruptStatus TRANSFER_COMPLETE
  dmWriteReg B .InterruptStatus TRANSFER_COMPLETE

/-- Claim C8: `write_page` never transmits the caller's payload — for any
two buffers and the same backend state it returns the same result, the
same final state and the identical trace of transport operations, and
that common behaviour is the buffer-free skeleton `write_page_spec`. -/
theorem write_page_ignores_buffer {σ : Type} (B : Backend σ) (s : σ)
    (page_number : Nat) (buf1 buf2 : List Nat) :
    write_page B page_number buf1 s = write_page B page_number buf2 s ∧
    write_page B page_number buf1 s = write_page_spec B page_number s :=
  ⟨rfl, rfl⟩

/-! ### Claim C10 -/

/-- Claim C10: every public operation of the reader other than `init`
leaves the `initialized` flag exactly as it was — none of them checks or
sets it. -/
theorem flag_frame {σ : Type} (B : Backend σ) (r : Reader σ) (reg : Register)
    (v page_number idx : Nat) (buf : List Nat) :
    (Reader.write_register B reg v r).2.1.initialized = r.initialized ∧
    (Reader.read_register B reg r).2.1.initialized = r.initialized ∧
    (Reader.read_data B reg buf r).2.1.initialized = r.initialized ∧
    (Reader.read_page B page_number buf r).2.1.initialized = r.initialized ∧
    (Reader.erase_page B page_number r).2.1.initialized = r.initialized ∧
    (Reader.write_page B page_number buf r).2.1.initialized = r.initialized ∧
    (Reader.poll_for_value B reg v r).2.1.initialized = r.initialized ∧
    (Reader.read_response B idx r).2.1.initialized = r.initialized ∧
    (Reader.read_present_state B r).2.1.initialized = r.initialized ∧
    (Reader.read_interrupt_status B r).2.1.initialized = r.initialized ∧
    (Reader.read_status_config B r).2.1.initialized = r.initialized ∧
    Reader.is_initialized r = r.initialized := by
  refine ⟨rfl, rfl, rfl, rfl, rfl, rfl, rfl, ?_, rfl, rfl, rfl, rfl⟩
  rcases idx with _ | _ | _ | _ | idx <;> rfl

/-! ### Claim C7 -/

set_option maxRecDepth 16384 in
/-- Claim C7: `execute_transaction` answers `Ok(None)` exactly for the
`Write` variant (whose `response_size` is `none`); any `Ok(Some buf)`
has `buf.len()` equal to the byte count of the transaction's
`response_size`; a successful `Write` performs one register write; a
successful `Read` returns the four little-endian bytes of the value
`read_register` produced; a successful `ReadData` returns the 512 bytes
`read_data` filled. -/
theorem execute_transaction_spec {σ : Type} (B : Backend σ) (t : TransactionType) (s : σ) :
    (∀ x, (execute_transaction B t s).1 = Except.ok x →
      (x = none ↔ t.response_size = none)) ∧
    (∀ b, (execute_transaction B t s).1 = Except.ok (some b) →
      ∃ ds, t.response_size = some ds ∧ b.length = ds.bytes) ∧
    (∀ r d, t = .Write r d → ∀ s1, B.writeRegister s r d = (Except.ok (), s1) →
      execute_transaction B t s =
        (Except.ok none, s1, [Ev.writeReg r d (Except.ok ())])) ∧
    (∀ r, t = .Read r → ∀ v s1, B.readRegister s r = (Except.ok v, s1) →
      execute_transaction B t s =
        (Except.ok (some (toLeBytes4 v)), s1, [Ev.readReg r (Except.ok v)])) ∧
    (∀ r, t = .ReadData r →
      ∀ out s1, B.readData s r (List.replicate 512 0) = (Except.ok out, s1) →
      execute_transaction B t s =
        (Except.ok (some out), s1, [Ev.readBulk r (List.replicate 512 0) (Except.ok out)]) ∧
      out.length = 512) := by
  refine ⟨?_, ?_, ?_, ?_, ?_⟩
  · intro x hx
    cases t with
    | Write r d =>
      rcases hw : B.writeRegister s r d with ⟨res, s1⟩
      cases res with
      | ok a =>
        simp only [execute_transaction, dmBind, dmWriteReg, dmPure, hw] at hx
        cases hx
        simp [TransactionType.response_size]
      | error e =>
        simp only [execute_transaction, dmBind, dmWriteReg, dmPure, hw] at hx
        exact Except.noConfusion hx
    | Read r =>
      rcases hr : B.readRegister s r with ⟨res, s1⟩
      cases res with
      | ok v =>
        simp only [execute_transaction, dmBind, dmReadReg, dmPure, hr] at hx
        cases hx
        simp [TransactionType.response_size]
      | error e =>
        simp only [execute_transaction, dmBind, dmReadReg, dmPure, hr] at hx
        exact Except.noConfusion hx
    | ReadData r =>
      rcases hr : B.readData s r (List.replicate 512 0) with ⟨res, s1⟩
      cases res with
      | ok out =>
        simp only [execute_transaction, dmBind, dmReadData, dmPure, hr] at hx
        cases hx
        simp [TransactionType.response_size]
      | error e =>
        simp only [execute_transaction, dmBind, dmReadData, dmPure, hr] at hx
        exact Except.noConfusion hx
  · intro b hb
    cases t with
    | Write r d =>
      rcases hw : B.writeRegister s r d with ⟨res, s1⟩
      cases res with
      | ok a =>
        simp only [execute_transaction, dmBind, dmWriteReg, dmPure, hw] at hb
        exact Option.noConfusion (Except.ok.inj hb)
      | error e =>
        simp only [execute_transaction, dmBind, dmWriteReg, dmPure, hw] at hb
        exact Except.noConfusion hb
    | Read r =>
      rcases hr : B.readRegister s r with ⟨res, s1⟩
      cases res with
      | ok v =>
        simp only [execute_transaction, dmBind, dmReadReg, dmPure, hr] at hb
        cases hb
        exact ⟨DataSize.Register, rfl, rfl⟩
      | error e =>
        simp only [execute_transaction, dmBind, dmReadReg, dmPure, hr] at hb
        exact Except.noConfusion hb
    | ReadData r =>
      rcases hr : B.readData s r (List.replicate 512 0) with ⟨res, s1⟩
      cases res with
      | ok out =>
        simp only [execute_transaction, dmBind, dmReadData, dmPure, hr] at hb
        cases hb
        refine ⟨DataSize.Page, rfl, ?_⟩
        have := B.readData_length s r (List.replicate 512 0) b s1 hr
        simpa using this
      | error e =>
        simp only [execute_transaction, dmBind, dmReadData, dmPure, hr] at hb
        exact Except.noConfusion hb
  · rintro r d rfl s1 hw
    simp only [execute_transaction, dmBind, dmWriteReg, dmPure, hw, List.append_nil]
  · rintro r rfl v s1 hr
    simp only [execute_transaction, dmBind, dmReadReg, dmPure, hr, List.append_nil]
  · rintro r rfl out s1 hr
    constructor
    · simp only [execute_transaction, dmBind, dmReadData, dmPure, hr, List.append_nil]
    · have h := B.readData_length s r (List.replicate 512 0) out s1 hr
      rw [h, List.length_replicate]

/-- A trivial always-succeeding backend over the unit state: writes
succeed, every register reads `0x11223344`, `read_data` hands the buffer
back unchanged. -/
def unitB : Backend Unit where
  writeRegister := fun s _ _ => (Except.ok (), s)
  readRegister := fun s _ => (Except.ok 0x11223344, s)
  readData := fun s _ buf => (Except.ok buf, s)
  resetHw := fun s => (Except.ok (), s)
  initHw := fun s => (Except.ok (), s)
  readData_length := by
    intro s r buf out s2 h
    cases h
    rfl

/-- Claim C7, witness: the dispatch theorem applied to `unitB` at each
of the three transaction kinds, every hypothesis discharged by
evaluation. -/
theorem execute_transaction_spec_witness :
    execute_transaction unitB (.Write Register.Argument 0xDEADBEEF) () =
      (Except.ok none, (), [Ev.writeReg Register.Argument 0xDEADBEEF (Except.ok ())]) ∧
    execute_transaction unitB (.Read Register.PresentState) () =
      (Except.ok (some (toLeBytes4 0x11223344)), (),
        [Ev.readReg Register.PresentState (Except.ok 0x11223344)]) ∧
    (execute_transaction unitB (.ReadData Register.DataFifo) () =
      (Except.ok (some (List.replicate 512 0)), (),
        [Ev.readBulk Register.DataFifo (List.replicate 512 0)
          (Except.ok (List.replicate 512 0))]) ∧
      (List.replicate 512 (0 : Nat)).length = 512) :=
  ⟨(execute_transaction_spec unitB (.Write Register.Argument 0xDEADBEEF) ()).2.2.1
      Register.Argument 0xDEADBEEF rfl () rfl,
   (execute_transaction_spec unitB (.Read Register.PresentState) ()).2.2.2.1
      Register.PresentState rfl 0x11223344 () rfl,
   (execute_transaction_spec unitB (.ReadData Register.DataFifo) ()).2.2.2.2
      Register.DataFifo rfl (List.replicate 512 0) () rfl⟩

/-! ### Claim C3 -/

/-- The backend state after `n` successive `read_register reg` calls
starting from `s` (whatever each read returned). -/
def iterReadState {σ : Type} (B : Backend σ) (reg : Register) (s : σ) : Nat → σ
  | 0 => s
  | n + 1 => (B.readRegister (iterReadState B reg s n) reg).2

/-- The outcome of the `(n+1)`-th successive `read_register reg` call
starting from `s` (0-based index `n`). -/
def iterReadVal {σ : Type} (B : Backend σ) (reg : Register) (s : σ) (n : Nat) :
    Except Err Nat :=
  (B.readRegister (iterReadState B reg s n) reg).1

theorem iterReadState_shift {σ : Type} (B : Backend σ) (reg : Register) (s : σ) :
    ∀ n, iterReadState B reg s (n + 1) =
      iterReadState B reg (B.readRegister s reg).2 n := by
  intro n
  induction n with
  | zero => rfl
  | succ n ih =>
    show (B.readRegister (iterReadState B reg s (n + 1)) reg).2 = _
    rw [ih]
    rfl

theorem iterReadVal_shift {σ : Type} (B : Backend σ) (reg : Register) (s : σ) (n : Nat) :
    iterReadVal B reg s (n + 1) = iterReadVal B reg (B.readRegister s reg).2 n := by
  unfold iterReadVal
  rw [iterReadState_shift]

theorem pollGo_unfold {σ : Type} (B : Backend σ) (reg : Register) (v : Nat) (n : Nat)
    (s : σ) :
    pollGo B reg v (n + 1) s =
      dmBind (dmReadReg B reg)
        (fun status_value =>
          if status_value = v then dmPure () else pollGo B reg v n) s := rfl

/-- Trace shape of the poll loop: at most `n` attempts, every recorded
operation a read of `reg`. -/
theorem pollGo_trace {σ : Type} (B : Backend σ) (reg : Register) (v : Nat) :
    ∀ n s, (pollGo B reg v n s).2.2.length ≤ n ∧
      ∀ ev ∈ (pollGo B reg v n s).2.2, ∃ res, ev = Ev.readReg reg res := by
  intro n
  induction n with
  | zero =>
    intro s
    exact ⟨Nat.le_refl 0, by intro ev h; exact absurd h (List.not_mem_nil ev)⟩
  | succ n ih =>
    intro s
    rcases hr : B.readRegister s reg with ⟨res, s1⟩
    rw [pollGo_unfold]
    cases res with
    | error e =>
      simp only [dmBind, dmReadReg, hr]
      refine ⟨by simp, ?_⟩
      intro ev h
      rw [List.mem_singleton] at h
      exact ⟨Except.error e, h⟩
    | ok x =>
      by_cases hx : x = v
      · subst hx
        simp only [dmBind, dmReadReg, hr, if_pos rfl]
        refine ⟨by simp [dmPure], ?_⟩
        intro ev h
        have h' : ev = Ev.readReg reg (Except.ok x) := by
          simpa [dmPure] using h
        exact ⟨Except.ok x, h'⟩
      · simp only [dmBind, dmReadReg, hr, if_neg hx]
        rcases hp : pollGo B reg v n s1 with ⟨res2, s2, t2⟩
        have hih := ih s1
        rw [hp] at hih
        have hlen : t2.length ≤ n := hih.1
        have hmem : ∀ ev ∈ t2, ∃ res, ev = Ev.readReg reg res := hih.2
        constructor
        · simp only [List.length_append, List.length_singleton]
          omega
        · intro ev h
          rw [List.mem_append] at h
          rcases h with h | h
          · rw [List.mem_singleton] at h
            exact ⟨Except.ok x, h⟩
          · exact hmem ev h

/-- If the first `j` reads succeed with non-matching values and the
`(j+1)`-th read returns the expected value, the poll succeeds after
exactly `j+1` read attempts. -/
theorem pollGo_hit {σ : Type} (B : Backend σ) (reg : Register) (v : Nat) :
    ∀ n s j, j < n →
      (∀ i, i < j → ∃ w, iterReadVal B reg s i = Except.ok w ∧ w ≠ v) →
      iterReadVal B reg s j = Except.ok v →
      (pollGo B reg v n s).1 = Except.ok () ∧
      (pollGo B reg v n s).2.2.length = j + 1 := by
  intro n
  induction n with
  | zero =>
    intro s j hj
    exact absurd hj (Nat.not_lt_zero j)
  | succ n ih =>
    intro s j hj hpre hhit
    rcases hr : B.readRegister s reg with ⟨res, s1⟩
    rw [pollGo_unfold]
    cases j with
    | zero =>
      have hres : res = Except.ok v := by
        have h0 := hhit
        unfold iterReadVal iterReadState at h0
        rw [hr] at h0
        exact h0
      subst hres
      simp only [dmBind, dmReadReg, hr, if_pos rfl, dmPure]
      exact ⟨rfl, by simp [dmPure]⟩
    | succ j' =>
      obtain ⟨w, hw, hwne⟩ := hpre 0 (Nat.succ_pos j')
      have hres : res = Except.ok w := by
        unfold iterReadVal iterReadState at hw
        rw [hr] at hw
        exact hw
      subst hres
      simp only [dmBind, dmReadReg, hr, if_neg hwne]
      have hshift : ∀ i, iterReadVal B reg s (i + 1) = iterReadVal B reg s1 i := by
        intro i
        rw [iterReadVal_shift, hr]
      have hpre' : ∀ i, i < j' → ∃ w2, iterReadVal B reg s1 i = Except.ok w2 ∧ w2 ≠ v := by
        intro i hi
        obtain ⟨w2, hw2, hw2ne⟩ := hpre (i + 1) (Nat.succ_lt_succ hi)
        rw [hshift i] at hw2
        exact ⟨w2, hw2, hw2ne⟩
      have hhit' : iterReadVal B reg s1 j' = Except.ok v := by
        rw [← hshift j']
        exact hhit
      obtain ⟨hok, hlen⟩ := ih s1 j' (Nat.lt_of_succ_lt_succ hj) hpre' hhit'
      rcases hp : pollGo B reg v n s1 with ⟨res2, s2, t2⟩
      rw [hp] at hok hlen
      have hok' : res2 = Except.ok () := hok
      have hlen' : t2.length = j' + 1 := hlen
      subst hok'
      exact ⟨rfl, by simp [hlen']⟩

/-- If all `n` reads succeed with non-matching values, the poll fails
with `Timeout` after exactly `n` read attempts. -/
theorem pollGo_miss {σ : Type} (B : Backend σ) (reg : Register) (v : Nat) :
    ∀ n s, (∀ i, i < n → ∃ w, iterReadVal B reg s i = Except.ok w ∧ w ≠ v) →
      (pollGo B reg v n s).1 = Except.error Err.timeout ∧
      (pollGo B reg v n s).2.2.length = n := by
  intro n
  induction n with
  | zero =>
    intro s _
    exact ⟨rfl, rfl⟩
  | succ n ih =>
    intro s hpre
    rcases hr : B.readRegister s reg with ⟨res, s1⟩
    rw [pollGo_unfold]
    obtain ⟨w, hw, hwne⟩ := hpre 0 (Nat.succ_pos n)
    have hres : res = Except.ok w := by
      unfold iterReadVal iterReadState at hw
      rw [hr] at hw
      exact hw
    subst hres
    simp only [dmBind, dmReadReg, hr, if_neg hwne]
    have hshift : ∀ i, iterReadVal B reg s (i + 1) = iterReadVal B reg s1 i := by
      intro i
      rw [iterReadVal_shift, hr]
    have hpre' : ∀ i, i < n → ∃ w2, iterReadVal B reg s1 i = Except.ok w2 ∧ w2 ≠ v := by
      intro i hi
      obtain ⟨w2, hw2, hw2ne⟩ := hpre (i + 1) (Nat.succ_lt_succ hi)
      rw [hshift i] at hw2
      exact ⟨w2, hw2, hw2ne⟩
    obtain ⟨herr, hlen⟩ := ih s1 hpre'
    rcases hp : pollGo B reg v n s1 with ⟨res2, s2, t2⟩
    rw [hp] at herr hlen
    have herr' : res2 = Except.error Err.timeout := herr
    have hlen' : t2.length = n := hlen
    subst herr'
    exact ⟨rfl, by simp [hlen']⟩

/-- Claim C3: `poll_for_value` reads the register at most 10 times and
records nothing but reads of that register; when the first matching read
is attempt `j+1` (`j < 10`, all earlier reads succeeding with other
values) it returns `Ok(())` after exactly `j+1` reads; when all 10 reads
succeed with non-matching values it returns `Err(Timeout)` after exactly
10 reads — the full fixed budget, not fewer or more. -/
theorem poll_for_value_spec {σ : Type} (B : Backend σ) (s : σ) (reg : Register) (v : Nat) :
    ((poll_for_value B reg v s).2.2.length ≤ 10 ∧
      ∀ ev ∈ (poll_for_value B reg v s).2.2, ∃ res, ev = Ev.readReg reg res) ∧
    (∀ j, j < 10 →
      (∀ i, i < j → ∃ w, iterReadVal B reg s i = Except.ok w ∧ w ≠ v) →
      iterReadVal B reg s j = Except.ok v →
      (poll_for_value B reg v s).1 = Except.ok () ∧
      (poll_for_value B reg v s).2.2.length = j + 1) ∧
    ((∀ i, i < 10 → ∃ w, iterReadVal B reg s i = Except.ok w ∧ w ≠ v) →
      (poll_for_value B reg v s).1 = Except.error Err.timeout ∧
      (poll_for_value B reg v s).2.2.length = 10) :=
  ⟨pollGo_trace B reg v 10 s,
   fun j hj hpre hhit => pollGo_hit B reg v 10 s j hj hpre hhit,
   fun h => pollGo_miss B reg v 10 s h⟩

/-- A counting backend over state `Nat`: each register read returns the
current counter and increments it, so successive reads observe 0, 1, 2, … -/
def ctrB : Backend Nat where
  writeRegister := fun s _ _ => (Except.ok (), s)
  readRegister := fun s _ => (Except.ok s, s + 1)
  readData := fun s _ buf => (Except.ok buf, s)
  resetHw := fun s => (Except.ok (), s)
  initHw := fun s => (Except.ok (), s)
  readData_length := by
    intro s r buf out s2 h
    cases h
    rfl

/-- Claim C3, witness: against the counting backend, polling for 3 from
counter 0 succeeds on the 4th read, and polling for 100 times out after
exactly 10 reads. -/
theorem poll_for_value_spec_witness :
    ((poll_for_value ctrB Register.InterruptStatus 3 0).1 = Except.ok () ∧
      (poll_for_value ctrB Register.InterruptStatus 3 0).2.2.length = 3 + 1) ∧
    ((poll_for_value ctrB Register.InterruptStatus 100 0).1 = Except.error Err.timeout ∧
      (poll_for_value ctrB Register.InterruptStatus 100 0).2.2.length = 10) :=
  ⟨(poll_for_value_spec ctrB 0 Register.InterruptStatus 3).2.1 3 (by decide)
      (by
        intro i hi
        interval_cases i
        · exact ⟨0, rfl, by decide⟩
        · exact ⟨1, rfl, by decide⟩
        · exact ⟨2, rfl, by decide⟩)
      rfl,
   (poll_for_value_spec ctrB 0 Register.InterruptStatus 100).2.2
      (by
        intro i hi
        interval_cases i <;> exact ⟨_, rfl, by decide⟩)⟩

/-! ### Claim C4 -/

/-- A backend on which the Argument register is a pure loopback: writing
`d` to Argument succeeds and the following Argument read returns `d`. -/
def Loopback {σ : Type} (B : Backend σ) : Prop :=
  ∀ s d, (B.writeRegister s Register.Argument d).1 = Except.ok () ∧
    (B.readRegister (B.writeRegister s Register.Argument d).2 Register.Argument).1 =
      Except.ok d

/-- The trace the sanity check produces when every round trip echoes. -/
def loopbackTrace : List Nat → List Ev
  | [] => []
  | v :: rest =>
      Ev.writeReg Register.Argument v (Except.ok ()) ::
      Ev.readReg Register.Argument (Except.ok v) :: loopbackTrace rest

theorem sanityGo_unfold {σ : Type} (B : Backend σ) (v : Nat) (rest : List Nat) (s : σ) :
    sanityGo B (v :: rest) s =
      dmBind (dmWriteReg B .Argument v)
        (fun _ => dmBind (dmReadReg B .Argument)
          (fun response1 =>
            if response1 ≠ v then dmFail (Err.sanityCheckFailed v response1)
            else sanityGo B rest)) s := rfl

/-- On a loopback backend the sanity loop accepts every value list and
records exactly the write/read pairs in order. -/
theorem sanityGo_loopback {σ : Type} (B : Backend σ) (hB : Loopback B) :
    ∀ vals s, (sanityGo B vals s).1 = Except.ok () ∧
      (sanityGo B vals s).2.2 = loopbackTrace vals := by
  intro vals
  induction vals with
  | nil => intro s; exact ⟨rfl, rfl⟩
  | cons v rest ih =>
    intro s
    obtain ⟨hw, hr⟩ := hB s v
    rcases hW : B.writeRegister s Register.Argument v with ⟨wres, s1⟩
    rw [hW] at hw hr
    have hwres : wres = Except.ok () := hw
    subst hwres
    rcases hR : B.readRegister s1 Register.Argument with ⟨rres, s2⟩
    rw [hR] at hr
    have hrres : rres = Except.ok v := hr
    subst hrres
    rw [sanityGo_unfold]
    simp only [dmBind, dmWriteReg, dmReadReg, hW, hR, ne_eq, not_true_eq_false,
      if_neg, if_false, ite_not]
    rcases hS : sanityGo B rest s2 with ⟨res3, s3, t3⟩
    have hih := ih s2
    rw [hS] at hih
    have h1 : res3 = Except.ok () := hih.1
    have h2 : t3 = loopbackTrace rest := hih.2
    subst h1
    subst h2
    simp [loopbackTrace]

/-- The state path of correctly echoing sanity rounds: from `s`, each
value in the list is written to Argument (successfully) and read back
equal, ending in the listed final state. -/
inductive EchoPath {σ : Type} (B : Backend σ) : σ → List Nat → σ → Prop
  | nil (s : σ) : EchoPath B s [] s
  | cons (s : σ) (v : Nat) (rest : List Nat) (s2 : σ) :
      (B.writeRegister s Register.Argument v).1 = Except.ok () →
      (B.readRegister (B.writeRegister s Register.Argument v).2 Register.Argument).1 =
        Except.ok v →
      EchoPath B
        (B.readRegister (B.writeRegister s Register.Argument v).2 Register.Argument).2
        rest s2 →
      EchoPath B s (v :: rest) s2

/-- After a correctly echoing prefix, a round whose write succeeds but
whose read returns `a ≠ v` makes the sanity loop stop at once with
`SanityCheckFailed{expected := v, actual := a}`: the trace ends with that
write/read pair and nothing after it. -/
theorem sanityGo_mismatch {σ : Type} (B : Backend σ)
    {s s1 : σ} {pre : List Nat} (h : EchoPath B s pre s1)
    (v a : Nat) (post : List Nat)
    (hw : (B.writeRegister s1 Register.Argument v).1 = Except.ok ())
    (hr : (B.readRegister (B.writeRegister s1 Register.Argument v).2 Register.Argument).1 =
      Except.ok a)
    (hne : a ≠ v) :
    (sanityGo B (pre ++ v :: post) s).1 =
      Except.error (Err.sanityCheckFailed v a) ∧
    (sanityGo B (pre ++ v :: post) s).2.2 =
      loopbackTrace pre ++
        [Ev.writeReg Register.Argument v (Except.ok ()),
         Ev.readReg Register.Argument (Except.ok a)] := by
  induction h with
  | nil s0 =>
    rcases hW : B.writeRegister s0 Register.Argument v with ⟨wres, t1⟩
    rw [hW] at hw hr
    have hwres : wres = Except.ok () := hw
    subst hwres
    rcases hR : B.readRegister t1 Register.Argument with ⟨rres, t2⟩
    rw [hR] at hr
    have hrres : rres = Except.ok a := hr
    subst hrres
    rw [List.nil_append, sanityGo_unfold]
    simp only [dmBind, dmWriteReg, dmReadReg, hW, hR]
    rw [if_pos hne]
    simp [dmFail, loopbackTrace]
  | cons s0 v0 rest s2 hw0 hr0 hpath ih =>
    rcases hW : B.writeRegister s0 Register.Argument v0 with ⟨wres, t1⟩
    rw [hW] at hw0 hr0
    have hwres : wres = Except.ok () := hw0
    subst hwres
    rcases hR : B.readRegister t1 Register.Argument with ⟨rres, t2⟩
    rw [hR] at hr0
    have hrres : rres = Except.ok v0 := hr0
    subst hrres
    rw [List.cons_append, sanityGo_unfold]
    simp only [dmBind, dmWriteReg, dmReadReg, hW, hR, ne_eq, not_true_eq_false,
      if_neg, if_false, ite_not]
    have hih := ih hw hr
    rw [hW, hR] at hih
    rcases hS : sanityGo B (rest ++ v :: post) t2 with ⟨res3, s3, t3⟩
    rw [hS] at hih
    have h1 : res3 = Except.error (Err.sanityCheckFailed v a) := hih.1
    have h2 : t3 = loopbackTrace rest ++
        [Ev.writeReg Register.Argument v (Except.ok ()),
         Ev.readReg Register.Argument (Except.ok a)] := hih.2
    subst h1
    subst h2
    simp [loopbackTrace]

/-- Claim C4: on a loopback backend `sanity_check` performs exactly the
four write-then-read round trips with `0x12345678, 0xEDCBA987,
0x12345678, 0xEDCBA987` in that order and returns `Ok(())`; after any
correctly echoing prefix, the first read that differs from the value
just written makes it return
`SanityCheckFailed{expected := written, actual := read}` immediately,
with no transport operation after that read. -/
theorem sanity_check_spec {σ : Type} (B : Backend σ) (s : σ) :
    (Loopback B →
      (sanity_check B s).1 = Except.ok () ∧
      (sanity_check B s).2.2 =
        [Ev.writeReg Register.Argument 0x12345678 (Except.ok ()),
         Ev.readReg Register.Argument (Except.ok 0x12345678),
         Ev.writeReg Register.Argument 0xEDCBA987 (Except.ok ()),
         Ev.readReg Register.Argument (Except.ok 0xEDCBA987),
         Ev.writeReg Register.Argument 0x12345678 (Except.ok ()),
         Ev.readReg Register.Argument (Except.ok 0x12345678),
         Ev.writeReg Register.Argument 0xEDCBA987 (Except.ok ()),
         Ev.readReg Register.Argument (Except.ok 0xEDCBA987)]) ∧
    (∀ pre v post a s1, sanityVals = pre ++ v :: post →
      EchoPath B s pre s1 →
      (B.writeRegister s1 Register.Argument v).1 = Except.ok () →
      (B.readRegister (B.writeRegister s1 Register.Argument v).2 Register.Argument).1 =
        Except.ok a →
      a ≠ v →
      (sanity_check B s).1 = Except.error (Err.sanityCheckFailed v a) ∧
      (sanity_check B s).2.2 =
        loopbackTrace pre ++
          [Ev.writeReg Register.Argument v (Except.ok ()),
           Ev.readReg Register.Argument (Except.ok a)]) := by
  constructor
  · intro hB
    have h := sanityGo_loopback B hB sanityVals s
    exact ⟨h.1, by unfold sanity_check; rw [h.2]; rfl⟩
  · intro pre v post a s1 hsplit hpath hw hr hne
    have h := sanityGo_mismatch B hpath v a post hw hr hne
    unfold sanity_check
    rw [hsplit]
    exact h

/-- A loopback backend over state `Nat`: the state stores the last value
written to Argument, reads return it. -/
def loopB : Backend Nat where
  writeRegister := fun s r d => (Except.ok (), if r = Register.Argument then d else s)
  readRegister := fun s _ => (Except.ok s, s)
  readData := fun s _ buf => (Except.ok buf, s)
  resetHw := fun s => (Except.ok (), s)
  initHw := fun s => (Except.ok (), s)
  readData_length := by
    intro s r buf out s2 h
    cases h
    rfl

/-- A backend whose register reads always return 0 (so the very first
sanity round trip mismatches). -/
def zeroReadB : Backend Unit where
  writeRegister := fun s _ _ => (Except.ok (), s)
  readRegister := fun s _ => (Except.ok 0, s)
  readData := fun s _ buf => (Except.ok buf, s)
  resetHw := fun s => (Except.ok (), s)
  initHw := fun s => (Except.ok (), s)
  readData_length := by
    intro s r buf out s2 h
    cases h
    rfl

/-- Claim C4, witness: the sanity-check theorem applied to the loopback
backend (success, all eight operations recorded) and to the all-zero
backend (immediate `SanityCheckFailed{expected := 0x12345678,
actual := 0}` after the first round trip). -/
theorem sanity_check_spec_witness :
    ((sanity_check loopB 0).1 = Except.ok () ∧
      (sanity_check loopB 0).2.2 =
        [Ev.writeReg Register.Argument 0x12345678 (Except.ok ()),
         Ev.readReg Register.Argument (Except.ok 0x12345678),
         Ev.writeReg Register.Argument 0xEDCBA987 (Except.ok ()),
         Ev.readReg Register.Argument (Except.ok 0xEDCBA987),
         Ev.writeReg Register.Argument 0x12345678 (Except.ok ()),
         Ev.readReg Register.Argument (Except.ok 0x12345678),
         Ev.writeReg Register.Argument 0xEDCBA987 (Except.ok ()),
         Ev.readReg Register.Argument (Except.ok 0xEDCBA987)]) ∧
    ((sanity_check zeroReadB ()).1 =
        Except.error (Err.sanityCheckFailed 0x12345678 0) ∧
      (sanity_check zeroReadB ()).2.2 =
        loopbackTrace [] ++
          [Ev.writeReg Register.Argument 0x12345678 (Except.ok ()),
           Ev.readReg Register.Argument (Except.ok 0)]) :=
  ⟨(sanity_check_spec loopB 0).1
      (by
        intro s d
        exact ⟨rfl, by simp [loopB]⟩),
   (sanity_check_spec zeroReadB ()).2 [] 0x12345678
      [0xEDCBA987, 0x12345678, 0xEDCBA987] 0 () rfl (EchoPath.nil ()) rfl rfl
      (by decide)⟩

/-! ### Claim C1 -/

/-- Modelled from the spec's seven-step description of `read_page`:
(1) write `STATUS_CLEAR` (`0xFFFFFFFF`) to InterruptStatus; (2) write
the page number to Argument; (3) write `PAGE_READ` (`0x113A0010`) to
CommandAndTransferMode; (4) poll InterruptStatus for `CMD_ACCEPTED`
(`0x21`); (5) poll InterruptStatus for `DATA_READY` (`0x20`) and
acknowledge by writing `DATA_READY` back; (6) bulk-read 512 bytes from
DataFifo into the caller's buffer; (7) read InterruptStatus once (value
discarded) and acknowledge with `TRANSFER_COMPLETE` (`0x2`); each step's
error propagates unchanged, skipping all later steps. -/
def read_page_spec {σ : Type} (B : Backend σ) (page_number : Nat) (buffer : List Nat) :
    DM σ (List Nat) := do
  dmWriteReg B .InterruptStatus STATUS_CLEAR
  dmWriteReg B .Argument page_number
  dmWriteReg B .CommandAndTransferMode PAGE_READ
  poll_for_value B .InterruptStatus CMD_ACCEPTED
  poll_for_value B .InterruptStatus DATA_READY
  dmWriteReg B .InterruptStatus DATA_READY
  let buf ← dmReadData B .DataFifo buffer
  let _ ← dmReadReg B .InterruptStatus
  dmWriteReg B .InterruptStatus TRANSFER_COMPLETE
  dmPure buf

/-- A computation stops at the operation that failed: any error it
returns is either the poll budget's `Timeout` or the unchanged error of
the last transport operation in its trace (so no operation follows the
failing one). -/
def ErrStops {σ α : Type} (m : DM σ α) : Prop :=
  ∀ s e, (m s).1 = Except.error e →
    e = Err.timeout ∨
      ∃ ev, ((m s).2.2).getLast? = some ev ∧ evErr ev = some e

theorem errStops_pure {σ α : Type} (a : α) : ErrStops (dmPure a : DM σ α) := by
  intro s e h
  exact Except.noConfusion h

theorem errStops_writeReg {σ : Type} (B : Backend σ) (r : Register) (d : Nat) :
    ErrStops (dmWriteReg B r d) := by
  intro s e h
  rcases hw : B.writeRegister s r d with ⟨res, s1⟩
  rw [dmWriteReg_apply, hw] at h ⊢
  cases res with
  | ok a => exact Except.noConfusion h
  | error e2 =>
    have he : e2 = e := Except.error.inj h
    subst he
    exact Or.inr ⟨Ev.writeReg r d (Except.error e2), rfl, rfl⟩

theorem errStops_readReg {σ : Type} (B : Backend σ) (r : Register) :
    ErrStops (dmReadReg B r) := by
  intro s e h
  rcases hr : B.readRegister s r with ⟨res, s1⟩
  rw [dmReadReg_apply, hr] at h ⊢
  cases res with
  | ok a => exact Except.noConfusion h
  | error e2 =>
    have he : e2 = e := Except.error.inj h
    subst he
    exact Or.inr ⟨Ev.readReg r (Except.error e2), rfl, rfl⟩

theorem errStops_readData {σ : Type} (B : Backend σ) (r : Register) (buf : List Nat) :
    ErrStops (dmReadData B r buf) := by
  intro s e h
  rcases hr : B.readData s r buf with ⟨res, s1⟩
  rw [dmReadData_apply, hr] at h ⊢
  cases res with
  | ok a => exact Except.noConfusion h
  | error e2 =>
    have he : e2 = e := Except.error.inj h
    subst he
    exact Or.inr ⟨Ev.readBulk r buf (Except.error e2), rfl, rfl⟩

theorem errStops_bind {σ α β : Type} {m : DM σ α} {f : α → DM σ β}
    (hm : ErrStops m) (hf : ∀ a, ErrStops (f a)) : ErrStops (m >>= f) := by
  intro s e h
  rcases hs : m s with ⟨res, s1, t1⟩
  cases res with
  | error e1 =>
    rw [dmBind_err hs] at h ⊢
    have he : e1 = e := Except.error.inj h
    subst he
    have := hm s e1
    rw [hs] at this
    exact this rfl
  | ok a =>
    rw [dmBind_ok hs] at h ⊢
    have hfa := hf a s1 e h
    rcases hfa with hto | ⟨ev, hlast, herr⟩
    · exact Or.inl hto
    · refine Or.inr ⟨ev, ?_, herr⟩
      have hne : (f a s1).2.2 ≠ [] := by
        intro hnil
        rw [hnil] at hlast
        exact Option.noConfusion hlast
      rw [List.getLast?_append_of_ne_nil t1 hne]
      exact hlast

theorem errStops_pollGo {σ : Type} (B : Backend σ) (reg : Register) (v : Nat) :
    ∀ n, ErrStops (pollGo B reg v n) := by
  intro n
  induction n with
  | zero =>
    intro s e h
    have he : Err.timeout = e := Except.error.inj h
    exact Or.inl he.symm
  | succ n ih =>
    have : ErrStops (dmBind (dmReadReg B reg)
        (fun status_value =>
          if status_value = v then dmPure () else pollGo B reg v n)) := by
      have := errStops_bind (m := dmReadReg B reg)
        (f := fun status_value =>
          if status_value = v then dmPure () else pollGo B reg v n)
        (errStops_readReg B reg)
        (by
          intro a
          show ErrStops (if a = v then dmPure () else pollGo B reg v n)
          by_cases ha : a = v
          · rw [if_pos ha]; exact errStops_pure ()
          · rw [if_neg ha]; exact ih)
      exact this
    intro s e h
    rw [pollGo_unfold] at h ⊢
    exact this s e h

/-- Successful polls record only successful reads of the target
register, the last of which observed the expected value. -/
theorem pollGo_ok_shape {σ : Type} (B : Backend σ) (reg : Register) (v : Nat) :
    ∀ n s, (pollGo B reg v n s).1 = Except.ok () →
      ∃ vs : List Nat, vs ≠ [] ∧ vs.length ≤ n ∧ vs.getLast? = some v ∧
        (pollGo B reg v n s).2.2 =
          vs.map (fun w => Ev.readReg reg (Except.ok w)) := by
  intro n
  induction n with
  | zero =>
    intro s h
    exact Except.noConfusion h
  | succ n ih =>
    intro s h
    rw [pollGo_unfold] at h ⊢
    rcases hr : B.readRegister s reg with ⟨res, s1⟩
    cases res with
    | error e =>
      have hread : dmReadReg B reg s =
          (Except.error e, s1, [Ev.readReg reg (Except.error e)]) := by
        rw [dmReadReg_apply, hr]
      rw [dmBind_err2 hread] at h
      exact Except.noConfusion h
    | ok x =>
      have hread : dmReadReg B reg s = (Except.ok x, s1, [Ev.readReg reg (Except.ok x)]) := by
        rw [dmReadReg_apply, hr]
      rw [dmBind_ok2 hread] at h ⊢
      by_cases hx : x = v
      · subst hx
        refine ⟨[x], by simp, by simp, by simp, ?_⟩
        simp [if_pos rfl, dmPure]
      · rw [if_neg hx] at h ⊢
        obtain ⟨vs, hne, hlen, hlast, htr⟩ := ih s1 h
        refine ⟨x :: vs, by simp, by simpa using Nat.succ_le_succ hlen, ?_, ?_⟩
        · rcases vs with _ | ⟨y, ys⟩
          · exact absurd rfl hne
          · rw [List.getLast?_cons_cons]
            exact hlast
        · simp only [List.map_cons]
          rw [← htr]
          rfl

theorem dmBind_inv {σ α β : Type} {m : DM σ α} {f : α → DM σ β} {s : σ} {b : β}
    (h : ((m >>= f) s).1 = Except.ok b) :
    ∃ a, (m s).1 = Except.ok a ∧
      (m >>= f) s =
        ((f a (m s).2.1).1, (f a (m s).2.1).2.1, (m s).2.2 ++ (f a (m s).2.1).2.2) := by
  rcases hs : m s with ⟨res, s1, t1⟩
  cases res with
  | error e =>
    rw [dmBind_err hs] at h
    exact Except.noConfusion h
  | ok a =>
    refine ⟨a, rfl, ?_⟩
    rw [dmBind_ok hs]

theorem writeReg_ok_trace {σ : Type} {B : Backend σ} {s : σ} {r : Register} {d : Nat}
    {u : Unit} (h : (dmWriteReg B r d s).1 = Except.ok u) :
    (dmWriteReg B r d s).2.2 = [Ev.writeReg r d (Except.ok ())] := by
  rcases hw : B.writeRegister s r d with ⟨res, s1⟩
  rw [dmWriteReg_apply, hw] at h ⊢
  cases res with
  | ok a => rfl
  | error e => exact Except.noConfusion h

theorem readReg_ok_trace {σ : Type} {B : Backend σ} {s : σ} {r : Register} {v : Nat}
    (h : (dmReadReg B r s).1 = Except.ok v) :
    (dmReadReg B r s).2.2 = [Ev.readReg r (Except.ok v)] := by
  rcases hr : B.readRegister s r with ⟨res, s1⟩
  rw [dmReadReg_apply, hr] at h ⊢
  cases res with
  | ok a => rw [show a = v from Except.ok.inj h]
  | error e => exact Except.noConfusion h

theorem readData_ok_trace {σ : Type} {B : Backend σ} {s : σ} {r : Register}
    {buf out : List Nat} (h : (dmReadData B r buf s).1 = Except.ok out) :
    (dmReadData B r buf s).2.2 = [Ev.readBulk r buf (Except.ok out)] ∧
      out.length = buf.length := by
  rcases hr : B.readData s r buf with ⟨res, s1⟩
  rw [dmReadData_apply, hr] at h ⊢
  cases res with
  | ok a =>
    have ha : a = out := Except.ok.inj h
    subst ha
    exact ⟨rfl, B.readData_length s r buf a s1 hr⟩
  | error e => exact Except.noConfusion h

theorem errStops_read_page {σ : Type} (B : Backend σ) (page_number : Nat)
    (buffer : List Nat) : ErrStops (read_page B page_number buffer) := by
  unfold read_page
  refine errStops_bind (errStops_writeReg _ _ _) (fun _ => ?_)
  refine errStops_bind (errStops_writeReg _ _ _) (fun _ => ?_)
  refine errStops_bind (errStops_writeReg _ _ _) (fun _ => ?_)
  refine errStops_bind (errStops_pollGo _ _ _ 10) (fun _ => ?_)
  refine errStops_bind (errStops_pollGo _ _ _ 10) (fun _ => ?_)
  refine errStops_bind (errStops_writeReg _ _ _) (fun _ => ?_)
  refine errStops_bind (errStops_readData _ _ _) (fun _ => ?_)
  refine errStops_bind (errStops_readReg _ _) (fun _ => ?_)
  refine errStops_bind (errStops_writeReg _ _ _) (fun _ => ?_)
  exact errStops_pure _

set_option maxHeartbeats 1000000 in
/-- Claim C1: `read_page` equals the spec's seven-step sequence
(`read_page_spec`), any error it returns is either a poll `Timeout` or
the unchanged error of the last transport operation performed (nothing
later runs), and a successful run's trace is exactly: the three
configuration writes (`STATUS_CLEAR` to InterruptStatus, the page number
to Argument, `PAGE_READ` to CommandAndTransferMode), one bounded poll
run ending on `CMD_ACCEPTED`, one ending on `DATA_READY`, the
`DATA_READY` acknowledge write, the 512-byte DataFifo bulk read into the
caller's buffer, one discarded InterruptStatus read, and the
`TRANSFER_COMPLETE` acknowledge write. -/
theorem read_page_correct {σ : Type} (B : Backend σ) (s : σ) (page_number : Nat)
    (buffer : List Nat) :
    read_page B page_number buffer s = read_page_spec B page_number buffer s ∧
    (∀ e, (read_page B page_number buffer s).1 = Except.error e →
      e = Err.timeout ∨
        ∃ ev, ((read_page B page_number buffer s).2.2).getLast? = some ev ∧
          evErr ev = some e) ∧
    (∀ out, (read_page B page_number buffer s).1 = Except.ok out →
      out.length = buffer.length ∧
      ∃ vs1 vs2 v, vs1 ≠ [] ∧ vs2 ≠ [] ∧ vs1.length ≤ 10 ∧ vs2.length ≤ 10 ∧
        vs1.getLast? = some CMD_ACCEPTED ∧ vs2.getLast? = some DATA_READY ∧
        (read_page B page_number buffer s).2.2 =
          Ev.writeReg .InterruptStatus STATUS_CLEAR (Except.ok ()) ::
          Ev.writeReg .Argument page_number (Except.ok ()) ::
          Ev.writeReg .CommandAndTransferMode PAGE_READ (Except.ok ()) ::
          (vs1.map (fun w => Ev.readReg .InterruptStatus (Except.ok w)) ++
           (vs2.map (fun w => Ev.readReg .InterruptStatus (Except.ok w)) ++
            [Ev.writeReg .InterruptStatus DATA_READY (Except.ok ()),
             Ev.readBulk .DataFifo buffer (Except.ok out),
             Ev.readReg .InterruptStatus (Except.ok v),
             Ev.writeReg .InterruptStatus TRANSFER_COMPLETE (Except.ok ())]))) := by
  refine ⟨rfl, fun e he => errStops_read_page B page_number buffer s e he, ?_⟩
  intro out hout
  unfold read_page poll_for_value at hout ⊢
  obtain ⟨u1, h1, e1⟩ := dmBind_inv hout
  simp only [e1] at hout ⊢
  obtain ⟨u2, h2, e2⟩ := dmBind_inv hout
  simp only [e2] at hout ⊢
  obtain ⟨u3, h3, e3⟩ := dmBind_inv hout
  simp only [e3] at hout ⊢
  obtain ⟨u4, h4, e4⟩ := dmBind_inv hout
  simp only [e4] at hout ⊢
  obtain ⟨u5, h5, e5⟩ := dmBind_inv hout
  simp only [e5] at hout ⊢
  obtain ⟨u6, h6, e6⟩ := dmBind_inv hout
  simp only [e6] at hout ⊢
  obtain ⟨b7, h7, e7⟩ := dmBind_inv hout
  simp only [e7] at hout ⊢
  obtain ⟨v8, h8, e8⟩ := dmBind_inv hout
  simp only [e8] at hout ⊢
  obtain ⟨u9, h9, e9⟩ := dmBind_inv hout
  simp only [e9] at hout ⊢
  simp only [dmPure] at hout
  have hb7 : b7 = out := Except.ok.inj hout
  subst hb7
  obtain ⟨ht7, hlen7⟩ := readData_ok_trace h7
  obtain ⟨vs1, hvs1ne, hvs1len, hvs1last, hpt1⟩ :=
    pollGo_ok_shape B .InterruptStatus CMD_ACCEPTED 10 _ h4
  obtain ⟨vs2, hvs2ne, hvs2len, hvs2last, hpt2⟩ :=
    pollGo_ok_shape B .InterruptStatus DATA_READY 10 _ h5
  refine ⟨hlen7, vs1, vs2, v8, hvs1ne, hvs2ne, hvs1len, hvs2len, hvs1last, hvs2last, ?_⟩
  rw [writeReg_ok_trace h1, writeReg_ok_trace h2, writeReg_ok_trace h3, hpt1, hpt2,
    writeReg_ok_trace h6, ht7, readReg_ok_trace h8, writeReg_ok_trace h9]
  simp [dmPure]

/-- A backend driving a successful `read_page` handshake: the first
register read answers `CMD_ACCEPTED`, the second `DATA_READY`, later
ones 0; `read_data` hands the buffer back unchanged. -/
def pageReadB : Backend Nat where
  writeRegister := fun s _ _ => (Except.ok (), s)
  readRegister := fun s _ =>
    (Except.ok (if s = 0 then CMD_ACCEPTED else if s = 1 then DATA_READY else 0), s + 1)
  readData := fun s _ buf => (Except.ok buf, s)
  resetHw := fun s => (Except.ok (), s)
  initHw := fun s => (Except.ok (), s)
  readData_length := by
    intro s r buf out s2 h
    cases h
    rfl

/-- A backend whose register writes always fail with `FtStatus 7`. -/
def failWriteB : Backend Unit where
  writeRegister := fun s _ _ => (Except.error (Err.ftStatus 7), s)
  readRegister := fun s _ => (Except.ok 0, s)
  readData := fun s _ buf => (Except.ok buf, s)
  resetHw := fun s => (Except.ok (), s)
  initHw := fun s => (Except.ok (), s)
  readData_length := by
    intro s r buf out s2 h
    cases h
    rfl

/-- Claim C1, witness: the `read_page` theorem applied to the failing
backend (the returned error is the last trace operation's, unchanged)
and to the successful handshake backend (the full operation sequence). -/
theorem read_page_correct_witness :
    (Err.ftStatus 7 = Err.timeout ∨
      ∃ ev, ((read_page failWriteB 3 [] ()).2.2).getLast? = some ev ∧
        evErr ev = some (Err.ftStatus 7)) ∧
    ((List.replicate 4 (0 : Nat)).length = (List.replicate 4 (0 : Nat)).length ∧
      ∃ vs1 vs2 v, vs1 ≠ [] ∧ vs2 ≠ [] ∧ vs1.length ≤ 10 ∧ vs2.length ≤ 10 ∧
        vs1.getLast? = some CMD_ACCEPTED ∧ vs2.getLast? = some DATA_READY ∧
        (read_page pageReadB 7 (List.replicate 4 0) 0).2.2 =
          Ev.writeReg .InterruptStatus STATUS_CLEAR (Except.ok ()) ::
          Ev.writeReg .Argument 7 (Except.ok ()) ::
          Ev.writeReg .CommandAndTransferMode PAGE_READ (Except.ok ()) ::
          (vs1.map (fun w => Ev.readReg .InterruptStatus (Except.ok w)) ++
           (vs2.map (fun w => Ev.readReg .InterruptStatus (Except.ok w)) ++
            [Ev.writeReg .InterruptStatus DATA_READY (Except.ok ()),
             Ev.readBulk .DataFifo (List.replicate 4 0) (Except.ok (List.replicate 4 0)),
             Ev.readReg .InterruptStatus (Except.ok v),
             Ev.writeReg .InterruptStatus TRANSFER_COMPLETE (Except.ok ())]))) :=
  ⟨(read_page_correct failWriteB () 3 []).2.1 (Err.ftStatus 7) rfl,
   (read_page_correct pageReadB 0 7 (List.replicate 4 0)).2.2 (List.replicate 4 0) rfl⟩

/-! ### Claim C2 -/

/-- Claim C2: when the reader is already initialized, `init` returns
`Ok` at once — same state, not one transport operation.  Otherwise it
runs `initSteps` (transport bring-up, the `0x00000003` write to
InitCommand, `sanity_check`, `init_sequence`, in that order, each step's
error aborting the rest), returns its result and trace unchanged, and
ends initialized exactly when every step succeeded — so any failing
`init` leaves the reader uninitialized. -/
theorem init_spec {σ : Type} (B : Backend σ) (fuel : Nat) (r : Reader σ) :
    (r.initialized = true → init B fuel r = (Except.ok (), r, [])) ∧
    (r.initialized = false →
      (init B fuel r).1 = (initSteps B fuel r.backendState).1 ∧
      (init B fuel r).2.2 = (initSteps B fuel r.backendState).2.2 ∧
      ((init B fuel r).2.1.initialized = true ↔
        (initSteps B fuel r.backendState).1 = Except.ok ())) := by
  constructor
  · intro h
    unfold init
    rw [if_pos h]
  · intro h
    unfold init
    rw [if_neg (by rw [h]; exact Bool.false_ne_true)]
    rcases hs : initSteps B fuel r.backendState with ⟨res, s1, t⟩
    cases res with
    | ok a =>
      refine ⟨rfl, rfl, ?_⟩
      simp
    | error e =>
      refine ⟨rfl, rfl, ?_⟩
      constructor
      · intro hfalse
        exact absurd hfalse (by simp)
      · intro hok
        exact absurd hok (by simp)

/-- Claim C2, witness: the init theorem applied to an already
initialized reader (immediate `Ok`, no operations) and to a fresh reader
over the failing-write backend (init fails at the InitCommand write and
the reader stays uninitialized). -/
theorem init_spec_witness :
    (init failWriteB 0 { backendState := (), initialized := true } =
      (Except.ok (), { backendState := (), initialized := true }, [])) ∧
    ((init failWriteB 0 (Reader.new ())).1 = (initSteps failWriteB 0 ()).1 ∧
      (init failWriteB 0 (Reader.new ())).2.2 = (initSteps failWriteB 0 ()).2.2 ∧
      ((init failWriteB 0 (Reader.new ())).2.1.initialized = true ↔
        (initSteps failWriteB 0 ()).1 = Except.ok ())) :=
  ⟨(init_spec failWriteB 0 { backendState := (), initialized := true }).1 rfl,
   (init_spec failWriteB 0 (Reader.new ())).2 rfl⟩

/-! ### Claim C9 -/

/-- The seven register-read values `init_sequence` asserts before the
memory-training loop, in read order. -/
def preReads : List Nat := [0x0, 0x3, 0x3, 0x0, 0x0, 0x1, 0x47]

/-- Read script of a device stuck in memory training: the first seven
reads answer the pre-loop assertions, and from then on each loop
iteration's three reads answer `0x0`, `0x1` (the InterruptStatus
assertions) and `0xFF8080` — `Response0And1` never leaves the initial
sentinel. -/
def scriptRead (n : Nat) : Nat :=
  if n < 7 then preReads.getD n 0
  else if (n - 7) % 3 = 0 then 0x0
  else if (n - 7) % 3 = 1 then 0x1
  else 0xFF8080

/-- The stuck-in-training backend: state counts reads; writes succeed
and leave the count alone; reads follow `scriptRead`. -/
def trainForeverB : Backend Nat where
  writeRegister := fun s _ _ => (Except.ok (), s)
  readRegister := fun s _ => (Except.ok (scriptRead s), s + 1)
  readData := fun s _ buf => (Except.ok buf, s)
  resetHw := fun s => (Except.ok (), s)
  initHw := fun s => (Except.ok (), s)
  readData_length := by
    intro s r buf out s2 h
    cases h
    rfl

theorem trainRest_unfold {σ : Type} (B : Backend σ) (n : Nat) (s : σ) :
    trainRest B (n + 1) s =
      dmBind (trainBody B)
        (fun res =>
          if res = 0xFF8080 then trainRest B n else dmAssertEq 0xC0FF8080 res) s := rfl

theorem trainBody_script (m : Nat) (h7 : 7 ≤ m) (h3 : (m - 7) % 3 = 0) :
    trainBody trainForeverB m =
      (Except.ok 0xFF8080, m + 3,
       [Ev.writeReg .Argument 0x40000080 (Except.ok ()),
        Ev.writeReg .CommandAndTransferMode 0x1020000 (Except.ok ()),
        Ev.readReg .InterruptStatus (Except.ok 0),
        Ev.readReg .InterruptStatus (Except.ok 1),
        Ev.writeReg .InterruptStatus 0x1 (Except.ok ()),
        Ev.readReg .Response0And1 (Except.ok 0xFF8080)]) := by
  have hr0 : scriptRead m = 0 := by
    unfold scriptRead
    rw [if_neg (by omega), if_pos h3]
  have hr1 : scriptRead (m + 1) = 1 := by
    unfold scriptRead
    rw [if_neg (by omega), if_neg (by omega), if_pos (by omega)]
  have hr2 : scriptRead (m + 2) = 0xFF8080 := by
    unfold scriptRead
    rw [if_neg (by omega), if_neg (by omega), if_neg (by omega)]
  simp [trainBody, dmBind_def, dmBind, dmWriteReg, dmReadReg, dmAssertEq, dmPure,
    dmFail, trainForeverB, hr0, hr1, hr2]

/-- Against the stuck-in-training backend, the loop tail exhausts every
fuel bound: it never produces a result. -/
theorem trainRest_script :
    ∀ fuel m, 7 ≤ m → (m - 7) % 3 = 0 →
      (trainRest trainForeverB fuel m).1 = Except.error Err.diverge := by
  intro fuel
  induction fuel with
  | zero => intro m _ _; rfl
  | succ n ih =>
    intro m h7 h3
    rw [trainRest_unfold, dmBind_ok2 (trainBody_script m h7 h3)]
    simp only [if_pos rfl]
    exact ih (m + 3) (by omega) (by omega)

/-- Against the stuck-in-training backend, `init_sequence` itself never
returns, for every fuel bound. -/
theorem init_sequence_diverges :
    ∀ fuel, (init_sequence trainForeverB fuel 0).1 = Except.error Err.diverge := by
  intro fuel
  have hpre : ∃ t, initSeqPre trainForeverB 0 = (Except.ok (), 7, t) := ⟨_, rfl⟩
  obtain ⟨t0, hpre⟩ := hpre
  have hfirst : ∃ t, trainFirst trainForeverB 7 = (Except.ok (), 10, t) := ⟨_, rfl⟩
  obtain ⟨t1, hfirst⟩ := hfirst
  have hmt : (memoryTraining trainForeverB fuel 7).1 = Except.error Err.diverge := by
    show (dmBind (trainFirst trainForeverB) (fun _ => trainRest trainForeverB fuel) 7).1 =
      Except.error Err.diverge
    rw [dmBind_ok2 hfirst]
    exact trainRest_script fuel 10 (by omega) (by omega)
  show (dmBind (initSeqPre trainForeverB)
      (fun _ => dmBind (memoryTraining trainForeverB fuel)
        (fun _ => initSeqPost trainForeverB)) 0).1 = Except.error Err.diverge
  rw [dmBind_ok2 hpre]
  rcases hm : memoryTraining trainForeverB fuel 7 with ⟨mres, ms, mt⟩
  rw [hm] at hmt
  have hmres : mres = Except.error Err.diverge := hmt
  subst hmres
  rw [dmBind_err2 hm]

theorem getLast_keep {l1 l2 : List Ev} {x : Ev} (h : l2.getLast? = some x) :
    (l1 ++ l2).getLast? = some x := by
  rw [List.getLast?_append_of_ne_nil l1
    (by intro hn; rw [hn] at h; exact Option.noConfusion h)]
  exact h

/-- A successful training-loop iteration's last recorded operation is
the `Response0And1` read, carrying the observed value. -/
theorem trainBody_ok_last {σ : Type} {B : Backend σ} {s : σ} {res : Nat}
    (h : (trainBody B s).1 = Except.ok res) :
    ((trainBody B s).2.2).getLast? =
      some (Ev.readReg .Response0And1 (Except.ok res)) := by
  unfold trainBody at h ⊢
  obtain ⟨u1, h1, e1⟩ := dmBind_inv h
  simp only [e1] at h ⊢
  obtain ⟨u2, h2, e2⟩ := dmBind_inv h
  simp only [e2] at h ⊢
  obtain ⟨v3, h3, e3⟩ := dmBind_inv h
  simp only [e3] at h ⊢
  obtain ⟨u4, h4, e4⟩ := dmBind_inv h
  simp only [e4] at h ⊢
  obtain ⟨v5, h5, e5⟩ := dmBind_inv h
  simp only [e5] at h ⊢
  obtain ⟨u6, h6, e6⟩ := dmBind_inv h
  simp only [e6] at h ⊢
  obtain ⟨u7, h7, e7⟩ := dmBind_inv h
  simp only [e7] at h ⊢
  refine getLast_keep (getLast_keep (getLast_keep (getLast_keep (getLast_keep
    (getLast_keep (getLast_keep ?_))))))
  rw [readReg_ok_trace h]
  rfl

/-- The training loop's tail can only exit successfully right after a
`Response0And1` read that observed the terminal sentinel `0xC0FF8080`:
that read is the last operation in its trace. -/
theorem trainRest_exit {σ : Type} (B : Backend σ) :
    ∀ fuel s, (trainRest B fuel s).1 = Except.ok () →
      ((trainRest B fuel s).2.2).getLast? =
        some (Ev.readReg .Response0And1 (Except.ok 0xC0FF8080)) := by
  intro fuel
  induction fuel with
  | zero =>
    intro s h
    exact Except.noConfusion h
  | succ n ih =>
    intro s h
    rw [trainRest_unfold] at h ⊢
    rcases hb : trainBody B s with ⟨bres, s1, bt⟩
    cases bres with
    | error e =>
      rw [dmBind_err2 hb] at h
      exact Except.noConfusion h
    | ok res =>
      rw [dmBind_ok2 hb] at h ⊢
      by_cases hres : res = 0xFF8080
      · simp only [if_pos hres] at h ⊢
        have hlast := ih _ h
        exact getLast_keep hlast
      · simp only [if_neg hres] at h ⊢
        unfold dmAssertEq at h ⊢
        by_cases he : (0xC0FF8080 : Nat) = res
        · rw [if_pos he] at h ⊢
          subst he
          have hbt : ((trainBody B s).2.2).getLast? =
              some (Ev.readReg .Response0And1 (Except.ok 0xC0FF8080)) :=
            trainBody_ok_last (by rw [hb])
          rw [hb] at hbt
          have hbt' : bt.getLast? =
              some (Ev.readReg .Response0And1 (Except.ok 0xC0FF8080)) := hbt
          simp only [dmPure, List.append_nil]
          exact hbt'
        · rw [if_neg he] at h
          exact Except.noConfusion h

/-- An iteration that observes a changed value other than the terminal
sentinel panics: the loop returns the assertion failure
`assert_eq!(0xC0FF8080, res)`. -/
theorem trainRest_badExit {σ : Type} (B : Backend σ) (s s1 : σ) (fuel res : Nat)
    (bt : List Ev) (hb : trainBody B s = (Except.ok res, s1, bt))
    (h1 : res ≠ 0xFF8080) (h2 : res ≠ 0xC0FF8080) :
    (trainRest B (fuel + 1) s).1 =
      Except.error (Err.assertFailed 0xC0FF8080 res) := by
  rw [trainRest_unfold, dmBind_ok2 hb]
  simp only [if_neg h1]
  unfold dmAssertEq
  rw [if_neg (fun he => h2 he.symm)]
  rfl

/-- Claim C9: against a backend whose `Response0And1` reads always
return `0xFF8080` while satisfying the loop's other read assertions
(`trainForeverB`), `init_sequence` exhausts every fuel bound — the
memory-training loop never exits, so the (fuel-free) source loop never
returns; in general the loop tail exits successfully only right after a
`Response0And1` read that differs from the initial sentinel, and that
value is forced to equal the terminal sentinel `0xC0FF8080` — any other
changed value fails the `assert_eq!(0xC0FF8080, res)` instead. -/
theorem training_loop_unbounded :
    (∀ fuel, (init_sequence trainForeverB fuel 0).1 = Except.error Err.diverge) ∧
    (∀ (σ : Type) (B : Backend σ) (fuel : Nat) (s : σ),
      (trainRest B fuel s).1 = Except.ok () →
      ((trainRest B fuel s).2.2).getLast? =
        some (Ev.readReg .Response0And1 (Except.ok 0xC0FF8080))) ∧
    (∀ (σ : Type) (B : Backend σ) (s s1 : σ) (fuel res : Nat) (bt : List Ev),
      trainBody B s = (Except.ok res, s1, bt) → res ≠ 0xFF8080 → res ≠ 0xC0FF8080 →
      (trainRest B (fuel + 1) s).1 =
        Except.error (Err.assertFailed 0xC0FF8080 res)) :=
  ⟨init_sequence_diverges,
   fun _ B fuel s h => trainRest_exit B fuel s h,
   fun _ B s s1 fuel res bt hb h1 h2 => trainRest_badExit B s s1 fuel res bt hb h1 h2⟩

/-- A backend whose training loop exits on the first tail iteration:
reads cycle `0`, `1`, then the terminal sentinel `0xC0FF8080`. -/
def exitB : Backend Nat where
  writeRegister := fun s _ _ => (Except.ok (), s)
  readRegister := fun s _ =>
    (Except.ok (if s % 3 = 0 then 0 else if s % 3 = 1 then 1 else 0xC0FF8080), s + 1)
  readData := fun s _ buf => (Except.ok buf, s)
  resetHw := fun s => (Except.ok (), s)
  initHw := fun s => (Except.ok (), s)
  readData_length := by
    intro s r buf out s2 h
    cases h
    rfl

/-- A backend whose training loop observes the changed value `5`, which
is neither sentinel, so the loop panics. -/
def badTrainB : Backend Nat where
  writeRegister := fun s _ _ => (Except.ok (), s)
  readRegister := fun s _ =>
    (Except.ok (if s % 3 = 0 then 0 else if s % 3 = 1 then 1 else 5), s + 1)
  readData := fun s _ buf => (Except.ok buf, s)
  resetHw := fun s => (Except.ok (), s)
  initHw := fun s => (Except.ok (), s)
  readData_length := by
    intro s r buf out s2 h
    cases h
    rfl

/-- Claim C9, witness: the theorem applied at fuel 5 on the stuck
backend, at the exiting backend (loop ends on the terminal-sentinel
read), and at the `5`-observing backend (assertion failure). -/
theorem training_loop_unbounded_witness :
    (init_sequence trainForeverB 5 0).1 = Except.error Err.diverge ∧
    ((trainRest exitB 1 0).2.2).getLast? =
      some (Ev.readReg .Response0And1 (Except.ok 0xC0FF8080)) ∧
    (trainRest badTrainB (3 + 1) 0).1 =
      Except.error (Err.assertFailed 0xC0FF8080 5) :=
  ⟨training_loop_unbounded.1 5,
   training_loop_unbounded.2.1 Nat exitB 1 0 rfl,
   training_loop_unbounded.2.2 Nat badTrainB 0 3 3 5
     [Ev.writeReg .Argument 0x40000080 (Except.ok ()),
      Ev.writeReg .CommandAndTransferMode 0x1020000 (Except.ok ()),
      Ev.readReg .InterruptStatus (Except.ok 0),
      Ev.readReg .InterruptStatus (Except.ok 1),
      Ev.writeReg .InterruptStatus 0x1 (Except.ok ()),
      Ev.readReg .Response0And1 (Except.ok 5)]
     rfl (by decide) (by decide)⟩
